import Mathlib

/-!
Verification development for the QRIS EventHub core: the QR payload codec
(`src/qris-converter.js`, `src/src/qris-converter.js`), the payment matcher
(`src/src/worker.js` `checkPaymentMatch`, `src/qris-integration.js`
`markPaymentCompleted`) and the unique-amount allocator
(`src/src/worker.js` `generateUniqueAmount`).

JavaScript strings are modelled as `List Char`; machine arithmetic on the
CRC register is modelled on `Nat` with explicit `% 0x10000` masks at the
points where only the low 16 bits can ever influence later computation
(left shifts never move high garbage bits back down, so the mask is
behaviour-preserving).  Fallible operations return `Except`/`Option`.
-/

set_option maxRecDepth 100000

namespace QRIS

/-! ## CRC16 engine (`calculateCRC16`, src/src/qris-converter.js lines 12-29) -/

/-- One iteration of the inner 8-round loop:
`if (crc & 0x8000) crc = (crc << 1) ^ 0x1021 else crc = crc << 1`,
with the register kept in 16 bits. -/
def crcRound (crc : Nat) : Nat :=
  if crc &&& 0x8000 ≠ 0 then ((crc <<< 1) ^^^ 0x1021) % 0x10000
  else (crc <<< 1) % 0x10000

/-- Processing of one input byte: `crc ^= code << 8` followed by the eight
shift rounds. -/
def crcByte (crc code : Nat) : Nat :=
  crcRound^[8] ((crc ^^^ (code <<< 8)) % 0x10000)

/-- The CRC register after the two nested loops, initial value `0xFFFF`. -/
def crc16 (s : List Char) : Nat :=
  s.foldl (fun crc c => crcByte crc c.toNat) 0xFFFF

/-- Uppercase hexadecimal digit (JS `toString(16).toUpperCase()`). -/
def hexDigitChar (n : Nat) : Char :=
  if n < 10 then Char.ofNat (48 + n) else Char.ofNat (55 + n)

/-- JS `n.toString(16)` for a 16-bit value, as uppercase characters. -/
def natToHexJS (n : Nat) : List Char :=
  if n < 16 then [hexDigitChar n]
  else if n < 256 then [hexDigitChar (n / 16), hexDigitChar (n % 16)]
  else if n < 4096 then
    [hexDigitChar (n / 256), hexDigitChar (n / 16 % 16), hexDigitChar (n % 16)]
  else
    [hexDigitChar (n / 4096), hexDigitChar (n / 256 % 16),
     hexDigitChar (n / 16 % 16), hexDigitChar (n % 16)]

/-- `calculateCRC16`: hex of the low 16 bits, and a single leading `'0'`
added only when the hex representation has exactly three digits. -/
def calculateCRC16 (str : List Char) : List Char :=
  let hex := natToHexJS (crc16 str &&& 0xFFFF)
  if hex.length = 3 then '0' :: hex else hex

/-! ## Shared string helpers -/

/-- Decimal digit character. -/
def digitChar (n : Nat) : Char := Char.ofNat (48 + n)

/-- Fuel-driven decimal printing (JS `n.toString()`); the fuel `n+1` always
suffices since the number of digits is at most `n+1`. -/
def decCharsGo : Nat → Nat → List Char → List Char
  | 0, _, acc => acc
  | fuel + 1, n, acc =>
    if n < 10 then digitChar n :: acc
    else decCharsGo fuel (n / 10) (digitChar (n % 10) :: acc)

/-- JS `n.toString()` for a natural number. -/
def natToDecChars (n : Nat) : List Char :=
  decCharsGo (n + 1) n []

/-- Numeric value of a decimal digit character. -/
def digitVal (c : Char) : Nat := c.toNat - 48

/-- First occurrence of `pat` replaced by `rep` (JS `String.prototype.replace`
with a string pattern replaces only the first occurrence). -/
def replaceFirst (pat rep : List Char) : List Char → List Char
  | [] => []
  | c :: t =>
    if pat.isPrefixOf (c :: t) then rep ++ (c :: t).drop pat.length
    else c :: replaceFirst pat rep t

/-- Does `pat` occur as a contiguous substring (JS `String.prototype.includes`)? -/
def hasSub (pat : List Char) : List Char → Bool
  | [] => pat.isEmpty
  | c :: t => pat.isPrefixOf (c :: t) || hasSub pat t

/-- Leftmost split of `s` at the first occurrence of `sep`:
the part before and the part after. -/
def findSplit (sep : List Char) : List Char → Option (List Char × List Char)
  | [] => if sep.isEmpty then some ([], []) else none
  | c :: t =>
    if sep.isPrefixOf (c :: t) then some ([], (c :: t).drop sep.length)
    else
      match findSplit sep t with
      | some (pre, post) => some (c :: pre, post)
      | none => none

/-- Fuel-driven splitting at every occurrence of `sep`
(JS `String.prototype.split` with a string separator). -/
def splitGo (sep : List Char) : Nat → List Char → List (List Char)
  | 0, s => [s]
  | fuel + 1, s =>
    match findSplit sep s with
    | none => [s]
    | some (pre, post) => pre :: splitGo sep fuel post

/-- JS `s.split(sep)` for a non-empty separator; fuel `s.length + 1`
suffices because every found separator consumes at least one character. -/
def splitOnSub (sep s : List Char) : List (List Char) :=
  splitGo sep (s.length + 1) s

/-! ## Wire-format constants (spec section 6) -/

/-- Format-indicator prefix actually tested by `validateQRIS`
(`qris.startsWith('00020')`). -/
def fmtInd5 : List Char := "00020".toList

/-- Full six-character format-indicator literal `000201`. -/
def fmtInd6 : List Char := "000201".toList

/-- Point-of-initiation marker, static variant. -/
def poiStatic : List Char := "010211".toList

/-- Point-of-initiation marker, dynamic variant. -/
def poiDynamic : List Char := "010212".toList

/-- Country/merchant sentinel `5802ID`. -/
def sentinel : List Char := "5802ID".toList

/-! ## validateQRIS (src/src/qris-converter.js lines 36-57) -/

/-- `validateQRIS`: length in [50,500], starts with `00020`, contains
`5802ID`.  The `!qris` falsy test is subsumed for strings by the length
lower bound but kept for fidelity. -/
def validateQRIS (qris : List Char) : Bool :=
  if qris.isEmpty || qris.length < 50 || 500 < qris.length then false
  else if !fmtInd5.isPrefixOf qris then false
  else if !hasSub sentinel qris then false
  else true

/-! ## extractAmount (src/src/qris-converter.js lines 64-82)

The regex `/54(\d{2})(\d+)/` matches at the leftmost position offering the
literal `54`, two digit characters, and at least one further digit; the
second group is the maximal digit run after the two length digits. -/

/-- Is the first character a decimal digit? -/
def digitStart : List Char → Bool
  | [] => false
  | c :: _ => c.isDigit

/-- Attempt of the regex `54(\d{2})(\d+)` anchored at the head of the list:
on success, the two length digits and the maximal digit run after them. -/
def matchAt : List Char → Option (Char × Char × List Char)
  | c1 :: c2 :: a :: b :: rest =>
    if c1 = '5' && c2 = '4' && a.isDigit && b.isDigit && digitStart rest then
      some (a, b, rest.takeWhile Char.isDigit)
    else none
  | _ => none

/-- Leftmost match of the regex `54(\d{2})(\d+)`. -/
def findTag54 : List Char → Option (Char × Char × List Char)
  | [] => none
  | c :: t =>
    match matchAt (c :: t) with
    | some r => some r
    | none => findTag54 t

/-- Does the character pair `54` occur at adjacent positions?  (Auxiliary
predicate used to state when the amount-extraction regex cannot fire before
the inserted amount field.) -/
def sub54 : List Char → Bool
  | [] => false
  | [_] => false
  | a :: b :: t => (a = '5' && b = '4') || sub54 (b :: t)

/-- `extractAmount`: parse the two-digit declared length, and return that
many characters of the digit run when available, else `null`. -/
def extractAmount (qris : List Char) : Option (List Char) :=
  match findTag54 qris with
  | some (d1, d2, run) =>
    let len := 10 * digitVal d1 + digitVal d2
    if len ≤ run.length then some (run.take len) else none
  | none => none

/-! ## convertStaticToDynamic (src/src/qris-converter.js lines 91-145) -/

/-- A JavaScript `string|number` amount argument. -/
inductive JSVal where
  | num (n : Nat)
  | str (s : List Char)
deriving DecidableEq

/-- JS falsiness of the amount argument (`!amount`): the number `0` and the
empty string are falsy. -/
def JSVal.falsy : JSVal → Bool
  | .num n => n = 0
  | .str s => s.isEmpty

/-- JS `amount.toString()`. -/
def JSVal.toChars : JSVal → List Char
  | .num n => natToDecChars n
  | .str s => s

/-- Optional service-fee descriptor: `serviceFee.type` and
`serviceFee.value.toString()`. -/
inductive FeeType where
  | rupiah
  | percent
  | other
deriving DecidableEq

structure ServiceFee where
  ftype : FeeType
  value : List Char
deriving DecidableEq

/-- Discriminable conversion failures (the JS code throws `Error`s with
distinct messages, re-wrapped as `QRIS conversion failed: ...`). -/
inductive QRISError where
  | requiredField
  | nonNumeric
  | structural
deriving DecidableEq

deriving instance DecidableEq for Except

/-- The regex test `/^\d+$/`. -/
def digitsOnly (s : List Char) : Bool :=
  !s.isEmpty && s.all Char.isDigit

/-- `formatLength`: the decimal length, left-padded with one `'0'` when it
has a single digit. -/
def formatLength (str : List Char) : List Char :=
  if (natToDecChars str.length).length = 1 then '0' :: natToDecChars str.length
  else natToDecChars str.length

/-- The payload with its last four characters (the CRC trailer) removed. -/
def qrisWithoutCRC (staticQRIS : List Char) : List Char :=
  staticQRIS.take (staticQRIS.length - 4)

/-- The first `010211` rewritten to `010212`. -/
def step1 (staticQRIS : List Char) : List Char :=
  replaceFirst poiStatic poiDynamic (qrisWithoutCRC staticQRIS)

/-- The split of the rewritten payload at the merchant sentinel. -/
def qrisParts (staticQRIS : List Char) : List (List Char) :=
  splitOnSub sentinel (step1 staticQRIS)

/-- The nested service-fee field appended after the amount field. -/
def feeChunk (fee : ServiceFee) : List Char :=
  match fee.ftype with
  | .rupiah => "55020256".toList ++ formatLength fee.value ++ fee.value
  | .percent => "55020357".toList ++ formatLength fee.value ++ fee.value
  | .other => []

/-- `convertStaticToDynamic`: the required-field check, the `/^\d+$/` check,
CRC strip, marker rewrite, sentinel split (exactly two parts required),
amount-field insertion and CRC recomputation. -/
def convertStaticToDynamic (staticQRIS : List Char) (amount : JSVal)
    (serviceFee : Option ServiceFee) : Except QRISError (List Char) :=
  if staticQRIS.isEmpty || amount.falsy then .error .requiredField
  else
    let amountStr := amount.toChars
    if !digitsOnly amountStr then .error .nonNumeric
    else
      match qrisParts staticQRIS with
      | [part0, part1] =>
        let amountField := "54".toList ++ formatLength amountStr ++ amountStr
        let amountField2 :=
          match serviceFee with
          | some fee => amountField ++ feeChunk fee
          | none => amountField
        let amountField3 := amountField2 ++ sentinel
        let qrisWithAmount := part0 ++ amountField3 ++ part1
        .ok (qrisWithAmount ++ calculateCRC16 qrisWithAmount)
      | _ => .error .structural

/-! ## Payment matcher (src/src/worker.js `checkPaymentMatch` lines 462-567,
src/qris-integration.js `markPaymentCompleted` lines 618-684)

Database rows of `payment_expectations` are modelled as `Expectation`
records, timestamps as natural-number seconds, and each SQL statement as
the corresponding pure list operation.  The comparison
`expected_amount = ?1 OR CAST(expected_amount AS INTEGER) = ?2`
(?1 the raw detected string, ?2 its normalized form) is modelled as string
equality or equality of the leading-digit-run integer values. -/

inductive Status where
  | pending
  | completed
deriving DecidableEq

structure Expectation where
  id : Nat
  order_reference : List Char
  expected_amount : List Char
  original_amount : Option (List Char)
  unique_amount : Option (List Char)
  callback_url : Option (List Char)
  status : Status
  created_at : Nat
  completed_at : Option Nat
deriving DecidableEq

/-- Value of a digit string read in decimal. -/
def decValue (s : List Char) : Nat :=
  s.foldl (fun a c => 10 * a + digitVal c) 0

/-- JS `parseInt(s, 10).toString()` for the strings handled here: the value
of the leading digit run, or `"NaN"` when there is none. -/
def jsParseIntToString (s : List Char) : List Char :=
  let run := s.takeWhile Char.isDigit
  if run.isEmpty then "NaN".toList else natToDecChars (decValue run)

/-- SQLite `CAST(s AS INTEGER)`: the value of the leading digit run
(`0` when there is none). -/
def castInt (s : List Char) : Nat :=
  decValue (s.takeWhile Char.isDigit)

/-- The WHERE clause of both expectation queries: pending status, amount
equality (raw or integer-normalized), created within the trailing
five-minute window. -/
def candidatePred (now : Nat) (detected normalized : List Char)
    (e : Expectation) : Bool :=
  e.status = Status.pending
    && (e.expected_amount = detected || castInt e.expected_amount = castInt normalized)
    && now - 300 < e.created_at

/-- Insertion into a list sorted by `created_at` descending. -/
def insertDesc (e : Expectation) : List Expectation → List Expectation
  | [] => [e]
  | x :: t => if x.created_at < e.created_at then e :: x :: t else x :: insertDesc e t

/-- `ORDER BY created_at DESC`. -/
def sortDesc (l : List Expectation) : List Expectation :=
  l.foldr insertDesc []

/-- The callback payload handed to `notifyWooCommerce`. -/
structure CallbackEvent where
  url : List Char
  order_reference : List Char
  amount : List Char
  expected_amount : List Char
  status : Status
  notification_text : List Char
  match_type : List Char
  timestamp : Nat
deriving DecidableEq

/-- `(text + ' ' + title + ' ' + (bigText || '')).toLowerCase()`. -/
def searchTextOf (text title : List Char) (bigText : Option (List Char)) : List Char :=
  (text ++ ' ' :: title ++ ' ' :: bigText.getD []).map Char.toLower

/-- `searchText.includes(expectation.order_reference.toLowerCase())`. -/
def refInText (searchText : List Char) (e : Expectation) : Bool :=
  hasSub (e.order_reference.map Char.toLower) searchText

/-- `UPDATE payment_expectations SET status='completed', completed_at=? WHERE id=?`. -/
def completeExp (now : Nat) (id : Nat) (st : List Expectation) : List Expectation :=
  st.map fun e =>
    if e.id = id then { e with status := Status.completed, completed_at := some now } else e

/-- `UPDATE payment_expectations SET status='pending', completed_at=NULL WHERE id=?`. -/
def revertExp (id : Nat) (st : List Expectation) : List Expectation :=
  st.map fun e =>
    if e.id = id then { e with status := Status.pending, completed_at := none } else e

/-- Tail of the worker `checkPaymentMatch` (lines 528-559): the
normalization re-check, on success the completion update plus the callback
intent, on mismatch no state change at all. -/
def finishMatch (st : List Expectation) (m : Expectation)
    (amountDetected text matchType : List Char) (now : Nat) :
    List Expectation × List CallbackEvent :=
  let normalizedDetected := jsParseIntToString amountDetected
  let normalizedExpected := jsParseIntToString m.expected_amount
  if normalizedDetected = normalizedExpected then
    let st2 := completeExp now m.id st
    let events :=
      match m.callback_url with
      | some url =>
        [⟨url, m.order_reference, amountDetected, m.expected_amount,
          Status.completed, text, matchType, now⟩]
      | none => []
    (st2, events)
  else (st, [])

/-- Worker `checkPaymentMatch`: query pending candidates by amount in the
five-minute window (newest first), try the order-reference text match, fall
back to amount-only matching when the pending count is exactly one, and
re-verify amounts before completing. -/
def checkPaymentMatch (st : List Expectation) (text title : List Char)
    (bigText : Option (List Char)) (amountDetected : List Char) (now : Nat) :
    List Expectation × List CallbackEvent :=
  let normalizedAmount := jsParseIntToString amountDetected
  let expectations := sortDesc (st.filter (candidatePred now amountDetected normalizedAmount))
  if expectations.isEmpty then (st, [])
  else
    let searchText := searchTextOf text title bigText
    match expectations.find? (refInText searchText) with
    | some m => finishMatch st m amountDetected text "order_reference_match".toList now
    | none =>
      let recentCount := (st.filter (candidatePred now amountDetected normalizedAmount)).length
      if recentCount = 1 then
        match expectations with
        | m :: _ => finishMatch st m amountDetected text "amount_only_match".toList now
        | [] => (st, [])
      else (st, [])

/-- JS `x || '0'` on a nullable string column. -/
def jsOrZeroStr : Option (List Char) → List Char
  | some s => if s.isEmpty then "0".toList else s
  | none => "0".toList

/-- `parseInt(x, 10).toString()` where `x` may be `null`
(`parseInt(null)` is `NaN`). -/
def parseIntOptToString : Option (List Char) → List Char
  | some s => jsParseIntToString s
  | none => "NaN".toList

/-- Node `markPaymentCompleted` (qris-integration.js lines 618-684):
complete first, pick the amount field that matches the detected amount
(expected, else original, else unique, else expected as fallback),
re-verify against that field, and on mismatch revert the completion. -/
def markPaymentCompleted (st : List Expectation) (expectation : Expectation)
    (amountDetected text matchType : List Char) (now : Nat) :
    List Expectation × List CallbackEvent :=
  let st1 := completeExp now expectation.id st
  let normalizedExpected := jsParseIntToString expectation.expected_amount
  let normalizedOriginal := jsParseIntToString (jsOrZeroStr expectation.original_amount)
  let normalizedUnique := jsParseIntToString (jsOrZeroStr expectation.unique_amount)
  let normalizedDetected := jsParseIntToString amountDetected
  let expectedAmountToMatch : Option (List Char) :=
    if normalizedDetected = normalizedExpected then some expectation.expected_amount
    else if normalizedDetected = normalizedOriginal then expectation.original_amount
    else if normalizedDetected = normalizedUnique then expectation.unique_amount
    else some expectation.expected_amount
  let normalizedExpectedToMatch := parseIntOptToString expectedAmountToMatch
  if normalizedDetected = normalizedExpectedToMatch then
    let events :=
      match expectation.callback_url with
      | some url =>
        [⟨url, expectation.order_reference, amountDetected,
          expectation.expected_amount, Status.completed, text, matchType, now⟩]
      | none => []
    (st1, events)
  else
    (revertExp expectation.id st1, [])

/-! ## Unique-amount allocator (src/src/worker.js `generateUniqueAmount`
lines 602-667)

Rows of `unique_amounts` are modelled as `Reservation` records; the
`Math.random()` draws are modelled as an input stream `draws : Nat → Nat`,
with `Math.floor(Math.random() * 200) + 1` becoming `draws i % 200 + 1`. -/

structure Reservation where
  unique_amount : List Char
  order_reference : List Char
  created_at : Nat
  expires_at : Nat
deriving DecidableEq

inductive AllocError where
  | poolExhausted
deriving DecidableEq

/-- `randomNum.toString().padStart(3, '0')`. -/
def pad3 (n : Nat) : List Char :=
  let s := natToDecChars n
  List.replicate (3 - s.length) '0' ++ s

/-- The `created_at`-maximal element (first such element on ties),
modelling `ORDER BY created_at DESC LIMIT 1`. -/
def maxByCreated : List Reservation → Option Reservation
  | [] => none
  | r :: t =>
    match maxByCreated t with
    | none => some r
    | some m => if r.created_at < m.created_at then some m else some r

/-- The most recent non-expired reservation for an order reference. -/
def latestActive (st : List Reservation) (orderRef : List Char) (now : Nat) :
    Option Reservation :=
  maxByCreated (st.filter fun r => r.order_reference = orderRef && now < r.expires_at)

/-- The bounded retry loop (`while (attempts < maxAttempts)`): draw, check
availability, insert under the uniqueness constraint (an insert conflict
counts as a failed attempt), give up when the budget is spent.  `fuel` is
the number of attempts remaining and `i` the index into the draw stream. -/
def allocLoop (orderRef : List Char) (now : Nat) (draws : Nat → Nat) :
    Nat → Nat → List Reservation → Except AllocError (List Char × List Reservation)
  | 0, _, _ => .error .poolExhausted
  | fuel + 1, i, st =>
    let randomNum := draws i % 200 + 1
    let uniqueAmount := pad3 randomNum
    if st.any (fun r => r.unique_amount = uniqueAmount && now < r.expires_at) then
      allocLoop orderRef now draws fuel (i + 1) st
    else if st.any (fun r => r.unique_amount = uniqueAmount) then
      allocLoop orderRef now draws fuel (i + 1) st
    else
      .ok (uniqueAmount, st ++ [⟨uniqueAmount, orderRef, now, now + 3600⟩])

/-- `generateUniqueAmount`: reuse an active reservation for the order when
one exists, else purge expired rows and run the bounded retry loop with a
budget of 200 attempts. -/
def generateUniqueAmount (st : List Reservation) (orderRef : List Char)
    (now : Nat) (draws : Nat → Nat) :
    Except AllocError (List Char × List Reservation) :=
  match latestActive st orderRef now with
  | some r => .ok (r.unique_amount, st)
  | none =>
    let cleaned := st.filter fun r => !decide (r.expires_at < now)
    allocLoop orderRef now draws 200 0 cleaned

/-! ## Concrete inputs used by counterexamples and witnesses -/

/-- A minimal payload accepted by the conversion (one sentinel occurrence;
`convertStaticToDynamic` performs no length validation). -/
def crcCexPayload : List Char := "A5802IDBCDEF".toList

/-- A well-formed static payload whose pre-sentinel segment contains the
digit run `5412345` followed by a letter. -/
def rtCexPayload : List Char :=
  ("000201010211" ++ "5412345A" ++ "00000000000000000000000000" ++ "5802ID"
    ++ "5908MERCHANT6304ABCD").toList

/-- A payload accepted by `validateQRIS` that does not begin with `000201`. -/
def valCexPayload : List Char :=
  ("000209" ++ "0102115802ID" ++ "XXXXXXXXXXXXXXXXXXXXXXXXXXXXXXXXXXXXXXXX").toList

/-- A small well-formed static payload whose pre-sentinel segment is free of
the character pair `54`. -/
def witPayload : List Char :=
  ("000201010211" ++ "ABCDEFGHIJKLMNOP" ++ "5802ID" ++ "QRSTUVWXYZABCDEF"
    ++ "6304").toList

/-- C3: `calculateCRC16` is documented (and specified) to return exactly
four uppercase hex characters, left-padded to width 4; on the input `"0E"`
the CRC register ends at `0xFB < 0x100`, the hex representation has two
digits, the single-case padding does not fire, and the function returns
the two-character string `"FB"`. -/
theorem calculateCRC16_padding_bug :
    crc16 "0E".toList = 0xFB
      ∧ calculateCRC16 "0E".toList = "FB".toList
      ∧ (calculateCRC16 "0E".toList).length ≠ 4 := by
  decide

/-- C2: converting `crcCexPayload` with amount `"801"` succeeds and returns
`"A54038015802IDB" ++ "12"`: the recomputed CRC register of the rebuilt
payload is `0x12 < 0x100`, so the appended trailer is the two-character
string `"12"`; removing the last four characters of the output therefore
cuts into the payload body, and recomputing `calculateCRC16` over it does
not reproduce those four characters. -/
theorem convert_crc_trailer_bug :
    convertStaticToDynamic crcCexPayload (.str "801".toList) none
        = .ok ("A54038015802IDB12".toList)
      ∧ crc16 "A54038015802IDB".toList = 0x12
      ∧ calculateCRC16 ("A54038015802IDB12".toList.take 13)
          ≠ "A54038015802IDB12".toList.drop 13 := by
  decide

/-! ## C4: the validateQRIS acceptance condition -/

/-- Exact characterization of `validateQRIS`. -/
lemma validateQRIS_eq_true (q : List Char) :
    validateQRIS q = true ↔
      50 ≤ q.length ∧ q.length ≤ 500
        ∧ fmtInd5.isPrefixOf q = true ∧ hasSub sentinel q = true := by
  unfold validateQRIS
  by_cases h0 : q.isEmpty
  · have hq : q = [] := by simpa [List.isEmpty_iff] using h0
    subst hq; simp
  · by_cases h1 : q.length < 50 <;> by_cases h2 : 500 < q.length <;>
      by_cases h3 : fmtInd5.isPrefixOf q = true <;>
      by_cases h4 : hasSub sentinel q = true <;>
      simp [h0, h1, h2, h3, h4] <;> omega

/-- C4 (counterexample): `valCexPayload` starts with `000209`, has length 58
and contains the sentinel; `validateQRIS` accepts it although it does not
begin with the format-indicator literal `000201`. -/
theorem validateQRIS_prefix_cex :
    validateQRIS valCexPayload = true ∧ fmtInd6.isPrefixOf valCexPayload = false := by
  decide

/-- C4 (amended): `validateQRIS` accepts a payload exactly when its length
lies in [50, 500], it begins with the five-character prefix `00020` (not
the six-character literal `000201`), and it contains `5802ID` somewhere. -/
theorem validateQRIS_accepts_iff (q : List Char) :
    validateQRIS q = true ↔
      50 ≤ q.length ∧ q.length ≤ 500
        ∧ fmtInd5.isPrefixOf q = true ∧ hasSub sentinel q = true :=
  validateQRIS_eq_true q

/-! ## C5 and C10: the conversion error taxonomy -/

/-- C5: `convertStaticToDynamic` fails exactly on a falsy payload or amount
(required-field error), a non-`/^\d+$/` amount string (format error), or a
sentinel split with a number of parts different from two (structural
error); each failure carries its own discriminable reason, and on every
other input the conversion succeeds. -/
theorem convert_error_taxonomy (p : List Char) (a : JSVal) (f : Option ServiceFee) :
    (convertStaticToDynamic p a f = .error .requiredField
        ↔ (p.isEmpty || a.falsy) = true)
      ∧ (convertStaticToDynamic p a f = .error .nonNumeric
        ↔ (p.isEmpty || a.falsy) = false ∧ digitsOnly a.toChars = false)
      ∧ (convertStaticToDynamic p a f = .error .structural
        ↔ (p.isEmpty || a.falsy) = false ∧ digitsOnly a.toChars = true
            ∧ (qrisParts p).length ≠ 2)
      ∧ ((∃ out, convertStaticToDynamic p a f = .ok out)
        ↔ (p.isEmpty || a.falsy) = false ∧ digitsOnly a.toChars = true
            ∧ (qrisParts p).length = 2) := by
  unfold convertStaticToDynamic
  by_cases h1 : (p.isEmpty || a.falsy) = true
  · simp [h1]
  · have h1' : (p.isEmpty || a.falsy) = false := by
      simpa using h1
    by_cases h2 : digitsOnly a.toChars = true
    · rcases hp : qrisParts p with _ | ⟨x, _ | ⟨y, _ | ⟨z, t⟩⟩⟩ <;>
        simp [h1', h2, hp]
    · have h2' : digitsOnly a.toChars = false := by simpa using h2
      simp [h1', h2']

/-- C10: a JavaScript-falsy amount is classified as missing, not as a format
error: the numeric amount `0` always yields the required-field failure,
while the digit string `"0"` is truthy and passes both the presence check
and the `/^\d+$/` check, so for a non-empty payload it never produces the
required-field or format failures. -/
theorem convert_zero_amount (p : List Char) (f : Option ServiceFee) :
    convertStaticToDynamic p (.num 0) f = .error .requiredField
      ∧ (p.isEmpty = false →
          convertStaticToDynamic p (.str "0".toList) f ≠ .error .requiredField
            ∧ convertStaticToDynamic p (.str "0".toList) f ≠ .error .nonNumeric) := by
  constructor
  · unfold convertStaticToDynamic
    simp [JSVal.falsy]
  · intro hp
    unfold convertStaticToDynamic
    rcases hq : qrisParts p with _ | ⟨x, _ | ⟨y, _ | ⟨z, t⟩⟩⟩ <;>
      simp [hp, hq, JSVal.falsy, JSVal.toChars, digitsOnly]

/-! ## C1: the amount round-trip through conversion and extraction -/

/-- The regex head-match fails whenever the first two characters are not
the literal `54`. -/
lemma matchAt_eq_none (c1 c2 : Char) (l : List Char)
    (h : (decide (c1 = '5') && decide (c2 = '4')) = false) :
    matchAt (c1 :: c2 :: l) = none := by
  rcases l with _ | ⟨a, _ | ⟨b, r⟩⟩
  · rfl
  · rfl
  · cases hA : decide (c1 = '5') <;> cases hB : decide (c2 = '4') <;>
      simp [matchAt, hA, hB] <;> simp [hA, hB] at h

/-- One scanning step of `findTag54` when the head position does not match. -/
lemma findTag54_cons_of_none (c : Char) (l : List Char)
    (h : matchAt (c :: l) = none) :
    findTag54 (c :: l) = findTag54 l := by
  simp [findTag54, h]

/-- The regex scan skips over any prefix that is free of the character pair
`54` and resumes at the first genuine `54`. -/
lemma findTag54_skip (t : List Char) :
    ∀ p0, sub54 p0 = false →
      findTag54 (p0 ++ '5' :: '4' :: t) = findTag54 ('5' :: '4' :: t) := by
  intro p0
  induction p0 with
  | nil => intro _; rfl
  | cons c p0' ih =>
    intro h
    have step : findTag54 ((c :: p0') ++ '5' :: '4' :: t)
        = findTag54 (p0' ++ '5' :: '4' :: t) := by
      apply findTag54_cons_of_none
      cases p0' with
      | nil =>
        exact matchAt_eq_none c '5' _ (by simp)
      | cons d p0'' =>
        apply matchAt_eq_none
        have h' := h
        simp only [sub54, Bool.or_eq_false_iff] at h'
        exact h'.1
    rw [step]
    apply ih
    cases p0' with
    | nil => rfl
    | cons d p0'' =>
      simp only [sub54, Bool.or_eq_false_iff] at h
      exact h.2

/-- The regex fires at a genuine amount field whose declared-length digits
are followed by at least one digit. -/
lemma findTag54_at_field (d1 d2 : Char) (rest : List Char)
    (h1 : d1.isDigit = true) (h2 : d2.isDigit = true)
    (h3 : digitStart rest = true) :
    findTag54 ('5' :: '4' :: d1 :: d2 :: rest)
      = some (d1, d2, rest.takeWhile Char.isDigit) := by
  simp [findTag54, matchAt, h1, h2, h3]

/-- `takeWhile` passes through an all-digit prefix. -/
lemma takeWhile_digit_append (l1 l2 : List Char) (h : l1.all Char.isDigit = true) :
    (l1 ++ l2).takeWhile Char.isDigit = l1 ++ l2.takeWhile Char.isDigit := by
  induction l1 with
  | nil => rfl
  | cons c t ih =>
    simp only [List.all_cons, Bool.and_eq_true] at h
    simp [List.takeWhile_cons, h.1, ih h.2]

/-- The sentinel as an explicit character list. -/
lemma sentinel_chars : sentinel = ['5', '8', '0', '2', 'I', 'D'] := rfl

/-- The amount tag as an explicit character list. -/
lemma tag54_chars : "54".toList = ['5', '4'] := rfl

/-- Exact shape of a successful conversion without service fee. -/
lemma convert_ok_eq (p : List Char) (a : JSVal) (p0 p1 : List Char)
    (hfalsy : (p.isEmpty || a.falsy) = false)
    (hdig : digitsOnly a.toChars = true)
    (hparts : qrisParts p = [p0, p1]) :
    convertStaticToDynamic p a none =
      .ok ((p0 ++ (("54".toList ++ formatLength a.toChars ++ a.toChars) ++ sentinel) ++ p1)
        ++ calculateCRC16
            (p0 ++ (("54".toList ++ formatLength a.toChars ++ a.toChars) ++ sentinel) ++ p1)) := by
  simp [convertStaticToDynamic, hfalsy, hdig, hparts]

/-- For strings of at most 99 characters, `formatLength` produces exactly
two decimal digits encoding the length. -/
lemma formatLength_spec (s : List Char) (h : s.length ≤ 99) :
    ∃ d1 d2, formatLength s = [d1, d2] ∧ d1.isDigit = true ∧ d2.isDigit = true
      ∧ 10 * digitVal d1 + digitVal d2 = s.length := by
  unfold formatLength
  generalize s.length = n at *
  interval_cases n <;> exact ⟨_, _, rfl, by decide, by decide, by decide⟩

/-- C1 (counterexample): `rtCexPayload` is accepted by `validateQRIS`, is
static (contains `010211`), and converts successfully with amount
`"50000"`; yet the leftmost regex match in the converted payload lands on
the spurious digit run `5412345` of the merchant prefix, its declared
length 12 exceeds the available digit run, and `extractAmount` returns
`null` instead of the amount. -/
theorem convert_extract_roundTrip_cex :
    validateQRIS rtCexPayload = true
      ∧ hasSub poiStatic rtCexPayload = true
      ∧ (convertStaticToDynamic rtCexPayload (.str "50000".toList) none).toOption ≠ none
      ∧ (convertStaticToDynamic rtCexPayload (.str "50000".toList) none).toOption.bind
          extractAmount = none := by
  decide

/-- C1 (amended): for a payload accepted by `validateQRIS` that splits into
exactly two parts at the sentinel and whose pre-sentinel part contains no
character pair `54`, and for a non-empty all-digit amount of at most 99
digits, extraction recovers the amount from the converted payload exactly. -/
theorem convert_extract_roundTrip (p a p0 p1 : List Char)
    (hval : validateQRIS p = true)
    (hparts : qrisParts p = [p0, p1])
    (h54 : sub54 p0 = false)
    (ha : a ≠ [])
    (had : a.all Char.isDigit = true)
    (hlen : a.length ≤ 99) :
    ∃ out, convertStaticToDynamic p (.str a) none = .ok out
      ∧ extractAmount out = some a := by
  have hp_len : 50 ≤ p.length := ((validateQRIS_eq_true p).mp hval).1
  have hp_ne : p.isEmpty = false := by
    cases p
    · simp at hp_len
    · rfl
  have hfalsy : (p.isEmpty || (JSVal.str a).falsy) = false := by
    simp [JSVal.falsy, hp_ne, ha]
  have hdig : digitsOnly (JSVal.str a).toChars = true := by
    simp [digitsOnly, JSVal.toChars, had, ha]
  obtain ⟨d1, d2, hfmt, hd1, hd2, hdv⟩ := formatLength_spec a hlen
  refine ⟨_, convert_ok_eq p (.str a) p0 p1 hfalsy hdig hparts, ?_⟩
  simp only [JSVal.toChars]
  have key : (p0 ++ (("54".toList ++ formatLength a ++ a) ++ sentinel) ++ p1)
        ++ calculateCRC16 (p0 ++ (("54".toList ++ formatLength a ++ a) ++ sentinel) ++ p1)
      = p0 ++ '5' :: '4' :: d1 :: d2 ::
          (a ++ '5' :: '8' :: '0' :: '2' :: 'I' :: 'D' ::
            (p1 ++ calculateCRC16
              (p0 ++ (("54".toList ++ formatLength a ++ a) ++ sentinel) ++ p1))) := by
    rw [hfmt, sentinel_chars, tag54_chars]
    simp [List.append_assoc]
  rw [key]
  rcases a with _ | ⟨c, a'⟩
  · exact absurd rfl ha
  have hc : c.isDigit = true := by
    simp only [List.all_cons, Bool.and_eq_true] at had
    exact had.1
  unfold extractAmount
  rw [findTag54_skip _ p0 h54, findTag54_at_field d1 d2 _ hd1 hd2 (by simp [digitStart, hc])]
  rw [show ((c :: a') ++ '5' :: '8' :: '0' :: '2' :: 'I' :: 'D' ::
        (p1 ++ calculateCRC16
          (p0 ++ (("54".toList ++ formatLength (c :: a') ++ (c :: a')) ++ sentinel) ++ p1)))
      = ((c :: a') ++ ('5' :: '8' :: '0' :: '2' :: 'I' :: 'D' ::
        (p1 ++ calculateCRC16
          (p0 ++ (("54".toList ++ formatLength (c :: a') ++ (c :: a')) ++ sentinel) ++ p1))))
    from rfl]
  rw [takeWhile_digit_append _ _ had]
  have hrun : ('5' :: '8' :: '0' :: '2' :: 'I' :: 'D' ::
        (p1 ++ calculateCRC16
          (p0 ++ (("54".toList ++ formatLength (c :: a') ++ (c :: a')) ++ sentinel) ++ p1))).takeWhile
        Char.isDigit = ['5', '8', '0', '2'] := by
    simp [List.takeWhile_cons]
  rw [hrun]
  show (if 10 * digitVal d1 + digitVal d2 ≤ ((c :: a') ++ ['5', '8', '0', '2']).length then
      some (((c :: a') ++ ['5', '8', '0', '2']).take (10 * digitVal d1 + digitVal d2))
    else none) = some (c :: a')
  rw [hdv]
  have hle : (c :: a').length ≤ ((c :: a') ++ ['5', '8', '0', '2']).length := by
    simp
  rw [if_pos hle, List.take_left]

/-- C1 (witness): the round-trip theorem applied to the concrete payload
`witPayload` and the amount `"50000"`. -/
theorem convert_extract_roundTrip_witness :
    ∃ out, convertStaticToDynamic witPayload (.str "50000".toList) none = .ok out
      ∧ extractAmount out = some "50000".toList :=
  convert_extract_roundTrip witPayload "50000".toList
    "000201010212ABCDEFGHIJKLMNOP".toList "QRSTUVWXYZABCDEF".toList
    (by decide) (by decide) (by decide) (by decide) (by decide) (by decide)

/-- C10 (witness): on the concrete payload `witPayload` the numeric amount
`0` is rejected as a missing field while the digit string `"0"` converts
successfully. -/
theorem convert_zero_amount_witness :
    convertStaticToDynamic witPayload (.num 0) none = .error .requiredField
      ∧ convertStaticToDynamic witPayload (.str "0".toList) none ≠ .error .requiredField
      ∧ convertStaticToDynamic witPayload (.str "0".toList) none ≠ .error .nonNumeric
      ∧ (convertStaticToDynamic witPayload (.str "0".toList) none).toOption ≠ none := by
  refine ⟨(convert_zero_amount witPayload none).1,
    ((convert_zero_amount witPayload none).2 (by decide)).1,
    ((convert_zero_amount witPayload none).2 (by decide)).2, ?_⟩
  decide

/-! ## C6: the matcher completion/revert step -/

/-- Composing the completion update with the revert update yields a single
pending/cleared update. -/
lemma revertExp_completeExp (now id : Nat) (st : List Expectation) :
    revertExp id (completeExp now id st)
      = st.map (fun e =>
          if e.id = id then { e with status := Status.pending, completed_at := none } else e) := by
  unfold revertExp completeExp
  rw [List.map_map]
  apply List.map_congr_left
  intro e _
  by_cases he : e.id = id
  · simp [Function.comp, he]
  · simp [Function.comp, he]

/-- An expectation whose original amount differs from its combined expected
amount, with a callback target attached. -/
def c6Exp : Expectation :=
  ⟨1, "ORDER_1".toList, "50123".toList, some "50000".toList, some "123".toList,
    some "http://cb".toList, Status.pending, 100, none⟩

/-- C6 (counterexample): on a detected amount of `50000`, which differs
from the expectation's normalized `expected_amount` `50123` but equals its
`original_amount`, `markPaymentCompleted` keeps the expectation completed
and emits a callback — it does not revert to pending, clear `completed_at`
and stay silent as the claim requires for every normalization mismatch with
`expected_amount`. -/
theorem markPaymentCompleted_expected_cex :
    jsParseIntToString "50000".toList ≠ jsParseIntToString c6Exp.expected_amount
      ∧ ((markPaymentCompleted [c6Exp] c6Exp "50000".toList "txt".toList
            "order_reference_match".toList 200).1.map Expectation.status) = [Status.completed]
      ∧ ((markPaymentCompleted [c6Exp] c6Exp "50000".toList "txt".toList
            "order_reference_match".toList 200).1.map Expectation.completed_at) = [some 200]
      ∧ (markPaymentCompleted [c6Exp] c6Exp "50000".toList "txt".toList
            "order_reference_match".toList 200).2 ≠ [] := by
  decide

/-- C6 (amended): the re-verification compares the normalized detected
amount against the matching amount field (expected, else original, else
unique, else expected as fallback).  When the detected amount matches none
of the three normalized fields, the completion is reverted: the expectation
ends pending with `completed_at` cleared and no callback is emitted. -/
theorem markPaymentCompleted_revert (st : List Expectation) (exp : Expectation)
    (amountDetected text matchType : List Char) (now : Nat)
    (h1 : jsParseIntToString amountDetected ≠ jsParseIntToString exp.expected_amount)
    (h2 : jsParseIntToString amountDetected
        ≠ jsParseIntToString (jsOrZeroStr exp.original_amount))
    (h3 : jsParseIntToString amountDetected
        ≠ jsParseIntToString (jsOrZeroStr exp.unique_amount)) :
    markPaymentCompleted st exp amountDetected text matchType now
      = (st.map (fun e =>
          if e.id = exp.id then { e with status := Status.pending, completed_at := none } else e),
         []) := by
  unfold markPaymentCompleted
  simp only [h1, h2, h3, parseIntOptToString, if_false, ite_false, if_neg,
    Bool.false_eq_true]
  rw [revertExp_completeExp]

/-- C6 (witness): the revert theorem applied to a concrete expectation whose
three amount fields all differ from the detected amount. -/
theorem markPaymentCompleted_revert_witness :
    jsParseIntToString "999".toList ≠ jsParseIntToString c6Exp.expected_amount
      ∧ markPaymentCompleted [c6Exp] c6Exp "999".toList "txt".toList
          "order_reference_match".toList 200
        = ([{ c6Exp with status := Status.pending, completed_at := none }], []) := by
  refine ⟨by decide, ?_⟩
  have h := markPaymentCompleted_revert [c6Exp] c6Exp "999".toList "txt".toList
    "order_reference_match".toList 200 (by decide) (by decide) (by decide)
  simpa using h

/-! ## C7: ambiguous amount-only matching is a no-op -/

/-- Membership is preserved by descending insertion. -/
lemma mem_insertDesc (e x : Expectation) (l : List Expectation) :
    x ∈ insertDesc e l ↔ x = e ∨ x ∈ l := by
  induction l with
  | nil => simp [insertDesc]
  | cons y t ih =>
    by_cases h : y.created_at < e.created_at
    · simp [insertDesc, h]
    · simp [insertDesc, h, ih]
      tauto

/-- Membership is preserved by the descending sort. -/
lemma mem_sortDesc (x : Expectation) (l : List Expectation) :
    x ∈ sortDesc l ↔ x ∈ l := by
  induction l with
  | nil => simp [sortDesc]
  | cons y t ih =>
    show x ∈ insertDesc y (sortDesc t) ↔ _
    rw [mem_insertDesc]
    simp [ih]

/-- Length is preserved by descending insertion. -/
lemma length_insertDesc (e : Expectation) (l : List Expectation) :
    (insertDesc e l).length = l.length + 1 := by
  induction l with
  | nil => rfl
  | cons y t ih =>
    by_cases h : y.created_at < e.created_at
    · simp [insertDesc, h]
    · simp [insertDesc, h, ih]

/-- Length is preserved by the descending sort. -/
lemma length_sortDesc (l : List Expectation) :
    (sortDesc l).length = l.length := by
  induction l with
  | nil => rfl
  | cons y t ih =>
    show (insertDesc y (sortDesc t)).length = _
    rw [length_insertDesc, ih]
    rfl

/-- C7: when at least two pending expectations match the detected amount in
the five-minute window and no candidate's order reference occurs in the
lowercased notification text, `checkPaymentMatch` changes no expectation
and emits no callback. -/
theorem checkPaymentMatch_ambiguous_noop (st : List Expectation)
    (text title : List Char) (bigText : Option (List Char))
    (amountDetected : List Char) (now : Nat)
    (hcount : 2 ≤ (st.filter
        (candidatePred now amountDetected (jsParseIntToString amountDetected))).length)
    (href : ∀ e ∈ st.filter
        (candidatePred now amountDetected (jsParseIntToString amountDetected)),
        refInText (searchTextOf text title bigText) e = false) :
    checkPaymentMatch st text title bigText amountDetected now = (st, []) := by
  unfold checkPaymentMatch
  have hlen : (sortDesc (st.filter
      (candidatePred now amountDetected (jsParseIntToString amountDetected)))).length
      = (st.filter (candidatePred now amountDetected (jsParseIntToString amountDetected))).length :=
    length_sortDesc _
  have hne : (sortDesc (st.filter
      (candidatePred now amountDetected (jsParseIntToString amountDetected)))).isEmpty = false := by
    rw [List.isEmpty_eq_false_iff_exists_mem]
    have : 0 < (sortDesc (st.filter
        (candidatePred now amountDetected (jsParseIntToString amountDetected)))).length := by
      omega
    exact List.exists_mem_of_length_pos this
  have hfind : (sortDesc (st.filter
      (candidatePred now amountDetected (jsParseIntToString amountDetected)))).find?
        (refInText (searchTextOf text title bigText)) = none := by
    rw [List.find?_eq_none]
    intro x hx
    simp [href x ((mem_sortDesc x _).mp hx)]
  have hone : ((st.filter
      (candidatePred now amountDetected (jsParseIntToString amountDetected))).length = 1)
      = False := by
    simp only [eq_iff_iff, iff_false]
    omega
  simp only [hne, Bool.false_eq_true, if_false, hfind, hone]

/-- First of two pending expectations sharing the amount `50100`. -/
def c7Exp1 : Expectation :=
  ⟨1, "ORDER_A".toList, "50100".toList, none, none, some "cb".toList,
    Status.pending, 100, none⟩

/-- Second of two pending expectations sharing the amount `50100`. -/
def c7Exp2 : Expectation :=
  ⟨2, "ORDER_B".toList, "50100".toList, none, none, none,
    Status.pending, 90, none⟩

/-- C7 (witness): with two in-window pending expectations for `50100` and a
notification mentioning neither reference, processing is a no-op. -/
theorem checkPaymentMatch_ambiguous_noop_witness :
    2 ≤ (([c7Exp1, c7Exp2]).filter
        (candidatePred 200 "50100".toList (jsParseIntToString "50100".toList))).length
      ∧ (∀ e ∈ ([c7Exp1, c7Exp2]).filter
          (candidatePred 200 "50100".toList (jsParseIntToString "50100".toList)),
          refInText (searchTextOf "payment received".toList "bank".toList none) e = false)
      ∧ checkPaymentMatch [c7Exp1, c7Exp2] "payment received".toList "bank".toList none
          "50100".toList 200 = ([c7Exp1, c7Exp2], []) :=
  ⟨by decide, by decide,
    checkPaymentMatch_ambiguous_noop [c7Exp1, c7Exp2] "payment received".toList
      "bank".toList none "50100".toList 200 (by decide) (by decide)⟩

/-! ## C8 and C9: the unique-amount allocator -/

/-- A successful pass of the retry loop only appends the freshly inserted
reservation, created now and expiring in one hour. -/
lemma allocLoop_ok_state (orderRef : List Char) (now : Nat) (draws : Nat → Nat) :
    ∀ fuel i st v st',
      allocLoop orderRef now draws fuel i st = .ok (v, st') →
      st' = st ++ [⟨v, orderRef, now, now + 3600⟩] := by
  intro fuel
  induction fuel with
  | zero => intro i st v st' h; exact absurd h (by simp [allocLoop])
  | succ n ih =>
    intro i st v st' h
    unfold allocLoop at h
    by_cases h1 : st.any (fun r =>
        r.unique_amount = pad3 (draws i % 200 + 1) && now < r.expires_at)
    · rw [if_pos h1] at h
      exact ih (i + 1) st v st' h
    · rw [if_neg h1] at h
      by_cases h2 : st.any (fun r => r.unique_amount = pad3 (draws i % 200 + 1))
      · rw [if_pos h2] at h
        exact ih (i + 1) st v st' h
      · rw [if_neg h2] at h
        simp only [Except.ok.injEq, Prod.mk.injEq] at h
        rw [← h.2, h.1]

/-- The retry loop either exhausts its budget or returns a padded value
drawn from the pool `{1, ..., 200}`. -/
lemma allocLoop_result (orderRef : List Char) (now : Nat) (draws : Nat → Nat) :
    ∀ fuel i st,
      allocLoop orderRef now draws fuel i st = .error .poolExhausted
        ∨ ∃ k st', 1 ≤ k ∧ k ≤ 200
            ∧ allocLoop orderRef now draws fuel i st = .ok (pad3 k, st') := by
  intro fuel
  induction fuel with
  | zero => intro i st; left; rfl
  | succ n ih =>
    intro i st
    unfold allocLoop
    by_cases h1 : st.any (fun r =>
        r.unique_amount = pad3 (draws i % 200 + 1) && now < r.expires_at)
    · rw [if_pos h1]; exact ih (i + 1) st
    · rw [if_neg h1]
      by_cases h2 : st.any (fun r => r.unique_amount = pad3 (draws i % 200 + 1))
      · rw [if_pos h2]; exact ih (i + 1) st
      · rw [if_neg h2]
        right
        exact ⟨draws i % 200 + 1, _, by omega,
          by have := Nat.mod_lt (draws i) (show 0 < 200 by omega); omega, rfl⟩

/-- The retry loop only ever reads the draw stream at the indices of its
remaining budget. -/
lemma allocLoop_draws_agree (orderRef : List Char) (now : Nat)
    (draws draws2 : Nat → Nat) :
    ∀ fuel i st, (∀ j, j < i + fuel → draws j = draws2 j) →
      allocLoop orderRef now draws fuel i st
        = allocLoop orderRef now draws2 fuel i st := by
  intro fuel
  induction fuel with
  | zero => intro i st _; rfl
  | succ n ih =>
    intro i st hag
    unfold allocLoop
    rw [hag i (by omega)]
    by_cases h1 : st.any (fun r =>
        r.unique_amount = pad3 (draws2 i % 200 + 1) && now < r.expires_at)
    · rw [if_pos h1, if_pos h1]
      exact ih (i + 1) st (fun j hj => hag j (by omega))
    · rw [if_neg h1, if_neg h1]
      by_cases h2 : st.any (fun r => r.unique_amount = pad3 (draws2 i % 200 + 1))
      · rw [if_pos h2, if_pos h2]
        exact ih (i + 1) st (fun j hj => hag j (by omega))
      · rw [if_neg h2, if_neg h2]

/-- The `LIMIT 1` selection returns nothing exactly on an empty row set. -/
lemma maxByCreated_eq_none_iff (l : List Reservation) :
    maxByCreated l = none ↔ l = [] := by
  cases l with
  | nil => simp [maxByCreated]
  | cons x t =>
    cases ht : maxByCreated t with
    | none => simp [maxByCreated, ht]
    | some m => by_cases hc : x.created_at < m.created_at <;> simp [maxByCreated, ht, hc]

/-- The `LIMIT 1` selection returns a row of the row set. -/
lemma maxByCreated_mem (l : List Reservation) (r : Reservation)
    (h : maxByCreated l = some r) : r ∈ l := by
  induction l with
  | nil => simp [maxByCreated] at h
  | cons x t ih =>
    rw [maxByCreated] at h
    cases ht : maxByCreated t with
    | none =>
      rw [ht] at h
      have h' : some x = some r := h
      simp only [Option.some.injEq] at h'
      simp [← h']
    | some m =>
      rw [ht] at h
      have h' : (if x.created_at < m.created_at then some m else some x) = some r := h
      by_cases hc : x.created_at < m.created_at
      · rw [if_pos hc] at h'
        simp only [Option.some.injEq] at h'
        exact List.mem_cons_of_mem x (ih (h' ▸ ht))
      · rw [if_neg hc] at h'
        simp only [Option.some.injEq] at h'
        simp [← h']

/-- Decimal printing of a number up to 999 uses at most three characters. -/
lemma natToDecChars_length_le_three (k : Nat) (h : k ≤ 999) :
    (natToDecChars k).length ≤ 3 := by
  unfold natToDecChars
  by_cases h1 : k < 10
  · simp [decCharsGo, h1]
  · obtain ⟨m, rfl⟩ : ∃ m, k = m + 1 := ⟨k - 1, by omega⟩
    rw [show decCharsGo (m + 1 + 1) (m + 1) []
        = decCharsGo (m + 1) ((m + 1) / 10) [digitChar ((m + 1) % 10)] from by
      simp [decCharsGo, h1]]
    by_cases h2 : (m + 1) / 10 < 10
    · simp [decCharsGo, h2]
    · rw [show decCharsGo (m + 1) ((m + 1) / 10) [digitChar ((m + 1) % 10)]
          = decCharsGo m ((m + 1) / 10 / 10)
              [digitChar ((m + 1) / 10 % 10), digitChar ((m + 1) % 10)] from by
        simp [decCharsGo, h2]]
      have h3 : (m + 1) / 10 / 10 < 10 := by
        rw [Nat.div_div_eq_div_mul]
        omega
      obtain ⟨n, rfl⟩ : ∃ n, m = n + 1 := ⟨m - 1, by omega⟩
      simp [decCharsGo, h3]

/-- A pool value is always padded to exactly three characters. -/
lemma pad3_length (k : Nat) (h : k ≤ 999) : (pad3 k).length = 3 := by
  have h3 := natToDecChars_length_le_three k h
  simp only [pad3, List.length_append, List.length_replicate]
  omega

/-- C8: a second allocation for the same order at the same instant returns
the same value and leaves the reservation table unchanged: the first call
either reused an active reservation (so the state is unchanged and the
lookup repeats identically) or inserted a fresh one-hour reservation that
the second call's lookup finds. -/
theorem generateUniqueAmount_idempotent (st : List Reservation) (orderRef : List Char)
    (now : Nat) (draws draws2 : Nat → Nat) (v : List Char) (st1 : List Reservation)
    (h : generateUniqueAmount st orderRef now draws = .ok (v, st1)) :
    generateUniqueAmount st1 orderRef now draws2 = .ok (v, st1) := by
  unfold generateUniqueAmount at h ⊢
  cases hl : latestActive st orderRef now with
  | some r =>
    rw [hl] at h
    simp only [Except.ok.injEq, Prod.mk.injEq] at h
    obtain ⟨hv, hst⟩ := h
    subst hst
    rw [hl]
    show Except.ok (r.unique_amount, st) = Except.ok (v, st)
    rw [hv]
  | none =>
    rw [hl] at h
    have hst1 := allocLoop_ok_state orderRef now draws 200 0 _ v st1 h
    have hfilnil : st.filter
        (fun r => r.order_reference = orderRef && now < r.expires_at) = [] := by
      have h0 := hl
      unfold latestActive at h0
      exact (maxByCreated_eq_none_iff _).mp h0
    have hmem : ∀ a ∈ st,
        ¬(a.order_reference = orderRef && now < a.expires_at) = true := by
      intro a ha
      intro hcontra
      have : a ∈ st.filter
          (fun r => r.order_reference = orderRef && now < r.expires_at) :=
        List.mem_filter.mpr ⟨ha, hcontra⟩
      rw [hfilnil] at this
      exact absurd this (List.not_mem_nil a)
    have hfil1 : st1.filter
        (fun r => r.order_reference = orderRef && now < r.expires_at)
        = [⟨v, orderRef, now, now + 3600⟩] := by
      rw [hst1, List.filter_append]
      have hc : (st.filter (fun r => !decide (r.expires_at < now))).filter
          (fun r => r.order_reference = orderRef && now < r.expires_at) = [] := by
        apply List.eq_nil_iff_forall_not_mem.mpr
        intro a
        intro ha
        have h1 := List.mem_filter.mp ha
        exact hmem a (List.mem_filter.mp h1.1).1 h1.2
      rw [hc]
      simp
    have hla : latestActive st1 orderRef now
        = some ⟨v, orderRef, now, now + 3600⟩ := by
      unfold latestActive
      rw [hfil1]
      rfl
    rw [hla]

/-- C8 (witness): two consecutive allocations for `ORDER_1` on an empty
table both return `007`, the second by reusing the inserted reservation. -/
theorem generateUniqueAmount_idempotent_witness :
    generateUniqueAmount [] "ORDER_1".toList 0 (fun _ => 6)
        = .ok ("007".toList, [⟨"007".toList, "ORDER_1".toList, 0, 3600⟩])
      ∧ generateUniqueAmount [⟨"007".toList, "ORDER_1".toList, 0, 3600⟩]
          "ORDER_1".toList 0 (fun _ => 42)
        = .ok ("007".toList, [⟨"007".toList, "ORDER_1".toList, 0, 3600⟩]) :=
  ⟨by decide,
    generateUniqueAmount_idempotent [] "ORDER_1".toList 0 (fun _ => 6) (fun _ => 42)
      "007".toList [⟨"007".toList, "ORDER_1".toList, 0, 3600⟩] (by decide)⟩

/-- C9: under the invariant that every stored reservation value was drawn
from the pool, every allocation either fails with the pool-exhaustion
error or returns a zero-padded three-character value between `001` and
`200`; and the retry loop inspects at most the first 200 random draws, so
it can never spin beyond its budget. -/
theorem generateUniqueAmount_bounded (st : List Reservation) (orderRef : List Char)
    (now : Nat) (draws : Nat → Nat)
    (hinv : ∀ r ∈ st, ∃ k, 1 ≤ k ∧ k ≤ 200 ∧ r.unique_amount = pad3 k) :
    (generateUniqueAmount st orderRef now draws = .error .poolExhausted
        ∨ ∃ k st', 1 ≤ k ∧ k ≤ 200 ∧ (pad3 k).length = 3
            ∧ generateUniqueAmount st orderRef now draws = .ok (pad3 k, st'))
      ∧ ∀ draws2 : Nat → Nat, (∀ i, i < 200 → draws i = draws2 i) →
          generateUniqueAmount st orderRef now draws
            = generateUniqueAmount st orderRef now draws2 := by
  constructor
  · unfold generateUniqueAmount
    cases hl : latestActive st orderRef now with
    | some r =>
      right
      have hr : r ∈ st := by
        have hm := maxByCreated_mem _ _ hl
        exact (List.mem_filter.mp hm).1
      obtain ⟨k, hk1, hk2, hk3⟩ := hinv r hr
      refine ⟨k, st, hk1, hk2, pad3_length k (by omega), ?_⟩
      show Except.ok (r.unique_amount, st) = Except.ok (pad3 k, st)
      rw [hk3]
    | none =>
      rcases allocLoop_result orderRef now draws 200 0
          (st.filter fun r => !decide (r.expires_at < now)) with h | ⟨k, st', hk1, hk2, h⟩
      · left; exact h
      · right; exact ⟨k, st', hk1, hk2, pad3_length k (by omega), h⟩
  · intro draws2 hag
    unfold generateUniqueAmount
    cases hl : latestActive st orderRef now with
    | some r => rfl
    | none =>
      exact allocLoop_draws_agree orderRef now draws draws2 200 0 _
        (fun j hj => hag j (by omega))

/-- C9 (witness): the bound theorem applied to the empty reservation table
and the constant draw stream. -/
theorem generateUniqueAmount_bounded_witness :
    (∀ r ∈ ([] : List Reservation), ∃ k, 1 ≤ k ∧ k ≤ 200 ∧ r.unique_amount = pad3 k)
      ∧ ((generateUniqueAmount [] "ORDER_1".toList 0 (fun _ => 0) = .error .poolExhausted
          ∨ ∃ k st', 1 ≤ k ∧ k ≤ 200 ∧ (pad3 k).length = 3
              ∧ generateUniqueAmount [] "ORDER_1".toList 0 (fun _ => 0)
                  = .ok (pad3 k, st'))
        ∧ ∀ draws2 : Nat → Nat, (∀ i, i < 200 → (fun _ => (0 : Nat)) i = draws2 i) →
            generateUniqueAmount [] "ORDER_1".toList 0 (fun _ => 0)
              = generateUniqueAmount [] "ORDER_1".toList 0 draws2) :=
  ⟨by simp, generateUniqueAmount_bounded [] "ORDER_1".toList 0 (fun _ => 0) (by simp)⟩

end QRIS
